/-
Verification of the RAG (retrieval-augmented generation) core of the
AI-Chat-APP repository.

The development shallowly embeds the Python services:
  * src/py_rag/simple_rag_service.py  (per-user lexical RAG)
  * src/py_rag/simple_working_rag.py  (global keyword RAG)
  * src/py_rag/local_rag_service.py   (embedding + flat index RAG)
  * src/services/ragPipelineService.py (pre-filter pipeline)

Texts are modelled as `String` (Python `str`, a sequence of code points),
machine floats as `ℚ` (all scores produced by the lexical code are exact
rationals), and Python dictionaries keyed by user id as total functions
`String → List _` with default `[]`, matching the `dict.get(u, [])`
access discipline of the source.
-/

import Mathlib

/- The arithmetic of `Rat` is `@[irreducible]` by default, which stops the
evaluation of concrete lexical scores; scores here are tiny fractions, so
unfolding is cheap and lets `decide` settle concrete query results. -/
set_option allowUnsafeReducibility true
attribute [semireducible] Rat.add Rat.mul Rat.inv Rat.div Rat.sub Rat.neg

namespace RagApp

/-! ## Text chunking

`simple_rag_service.ingest_file` / `simple_working_rag.ingest` split text by
`chunks = [text[i:i+1000] for i in range(0, len(text), 1000)]`.
`chunkText n` embeds this slicing loop for a general chunk size `n`. -/

/-- Fuel-indexed chunking loop; structural recursion keeps it reducible in
the kernel.  With `fuel ≥ t.length` and `n ≠ 0` the fuel never runs out. -/
def chunkTextAux (n : ℕ) : ℕ → List Char → List (List Char)
  | 0, _ => []
  | _, [] => []
  | fuel + 1, c :: rest =>
    (c :: rest).take n :: chunkTextAux n fuel ((c :: rest).drop n)

/-- `[t[i:i+n] for i in range(0, len(t), n)]` on a list of characters.
For `n = 0` Python `range` would raise; every theorem about the function
assumes `n ≠ 0` (the source always uses 1000). -/
def chunkText (n : ℕ) (t : List Char) : List (List Char) :=
  chunkTextAux n t.length t

theorem chunkTextAux_nil (n : ℕ) : ∀ f, chunkTextAux n f [] = [] := by
  intro f; cases f <;> rfl

theorem chunkTextAux_fuel (n : ℕ) (hn : n ≠ 0) :
    ∀ (f1 : ℕ) (f2 : ℕ) (t : List Char), t.length ≤ f1 → t.length ≤ f2 →
      chunkTextAux n f1 t = chunkTextAux n f2 t := by
  intro f1
  induction f1 with
  | zero =>
    intro f2 t h1 h2
    have h0 : t = [] := List.eq_nil_of_length_eq_zero (Nat.le_zero.mp h1)
    rw [h0, chunkTextAux_nil, chunkTextAux_nil]
  | succ g ih =>
    intro f2 t h1 h2
    cases t with
    | nil => rw [chunkTextAux_nil, chunkTextAux_nil]
    | cons c rest =>
      cases f2 with
      | zero => simp at h2
      | succ g2 =>
        show (c :: rest).take n :: chunkTextAux n g ((c :: rest).drop n) =
          (c :: rest).take n :: chunkTextAux n g2 ((c :: rest).drop n)
        rw [ih g2 ((c :: rest).drop n)
          (by simp only [List.length_drop, List.length_cons] at h1 ⊢; omega)
          (by simp only [List.length_drop, List.length_cons] at h2 ⊢; omega)]

theorem chunkText_nil (n : ℕ) : chunkText n [] = [] := rfl

theorem chunkText_cons (n : ℕ) (hn : n ≠ 0) (t : List Char) (ht : t ≠ []) :
    chunkText n t = t.take n :: chunkText n (t.drop n) := by
  cases t with
  | nil => exact absurd rfl ht
  | cons c rest =>
    show (c :: rest).take n :: chunkTextAux n rest.length ((c :: rest).drop n)
      = (c :: rest).take n :: chunkText n ((c :: rest).drop n)
    rw [chunkText, chunkTextAux_fuel n hn rest.length
      ((c :: rest).drop n).length ((c :: rest).drop n)
      (by simp only [List.length_drop, List.length_cons]; omega) le_rfl]

theorem chunkText_join_aux (n : ℕ) (hn : n ≠ 0) :
    ∀ (m : ℕ) (t : List Char), t.length ≤ m → (chunkText n t).flatten = t := by
  intro m
  induction m with
  | zero =>
    intro t ht
    have h0 : t = [] := List.eq_nil_of_length_eq_zero (Nat.le_zero.mp ht)
    simp [h0, chunkText_nil]
  | succ m ih =>
    intro t ht
    by_cases h : t = []
    · simp [h, chunkText_nil]
    · rw [chunkText_cons n hn t h, List.flatten_cons,
        ih (t.drop n) (by simp only [List.length_drop]; omega),
        List.take_append_drop]

/-- The chunks concatenate back to the original text. -/
theorem chunkText_join (n : ℕ) (hn : n ≠ 0) (t : List Char) :
    (chunkText n t).flatten = t :=
  chunkText_join_aux n hn t.length t le_rfl

theorem chunkText_length_aux (n : ℕ) (hn : n ≠ 0) :
    ∀ (m : ℕ) (t : List Char), t.length ≤ m →
      (chunkText n t).length = (t.length + n - 1) / n := by
  intro m
  induction m with
  | zero =>
    intro t ht
    have h0 : t = [] := List.eq_nil_of_length_eq_zero (Nat.le_zero.mp ht)
    subst h0
    simp [chunkText_nil, Nat.div_eq_of_lt (by omega : n - 1 < n)]
  | succ m ih =>
    intro t ht
    by_cases h : t = []
    · subst h
      simp [chunkText_nil, Nat.div_eq_of_lt (by omega : n - 1 < n)]
    · have hl : 0 < t.length := List.length_pos.mpr h
      rw [chunkText_cons n hn t h, List.length_cons,
        ih (t.drop n) (by simp only [List.length_drop]; omega),
        List.length_drop]
      by_cases hle : t.length ≤ n
      · have e1 : t.length - n = 0 := by omega
        have e2 : t.length + n - 1 = (t.length - 1) + n := by omega
        rw [e1, e2, Nat.add_div_right _ (Nat.pos_of_ne_zero hn),
          Nat.div_eq_of_lt (by omega : t.length - 1 < n)]
        simp [Nat.div_eq_of_lt (by omega : n - 1 < n)]
      · have e3 : t.length + n - 1 = (t.length - n + n - 1) + n := by omega
        rw [e3, Nat.add_div_right _ (Nat.pos_of_ne_zero hn)]

/-- Chunk count is `ceil(len(t) / n)`, written `(len(t) + n - 1) / n` in ℕ. -/
theorem chunkText_length (n : ℕ) (hn : n ≠ 0) (t : List Char) :
    (chunkText n t).length = (t.length + n - 1) / n :=
  chunkText_length_aux n hn t.length t le_rfl

theorem chunkText_mem_aux (n : ℕ) (hn : n ≠ 0) :
    ∀ (m : ℕ) (t : List Char), t.length ≤ m →
      ∀ c ∈ chunkText n t, 0 < c.length ∧ c.length ≤ n := by
  intro m
  induction m with
  | zero =>
    intro t ht
    have h0 : t = [] := List.eq_nil_of_length_eq_zero (Nat.le_zero.mp ht)
    simp [h0, chunkText_nil]
  | succ m ih =>
    intro t ht c hc
    by_cases h : t = []
    · simp [h, chunkText_nil] at hc
    · rw [chunkText_cons n hn t h] at hc
      rcases List.mem_cons.mp hc with h1 | h1
      · subst h1
        have hl : 0 < t.length := List.length_pos.mpr h
        constructor
        · simp only [List.length_take]
          omega
        · simp only [List.length_take]
          omega
      · exact ih (t.drop n) (by simp only [List.length_drop]; omega) c h1

/-- Every chunk is non-empty and no longer than the chunk size. -/
theorem chunkText_mem_length (n : ℕ) (hn : n ≠ 0) (t : List Char) :
    ∀ c ∈ chunkText n t, 0 < c.length ∧ c.length ≤ n :=
  chunkText_mem_aux n hn t.length t le_rfl

theorem chunkText_full_aux (n : ℕ) (hn : n ≠ 0) :
    ∀ (m : ℕ) (t : List Char), t.length ≤ m →
      ∀ i, i + 1 < (chunkText n t).length →
        ((chunkText n t).getD i []).length = n := by
  intro m
  induction m with
  | zero =>
    intro t ht
    have h0 : t = [] := List.eq_nil_of_length_eq_zero (Nat.le_zero.mp ht)
    simp [h0, chunkText_nil]
  | succ m ih =>
    intro t ht i hi
    by_cases h : t = []
    · simp [h, chunkText_nil] at hi
    · rw [chunkText_cons n hn t h] at hi ⊢
      cases i with
      | zero =>
        -- the tail is non-empty, so the text is longer than n
        simp only [List.length_cons] at hi
        have hne : chunkText n (t.drop n) ≠ [] := by
          intro he
          rw [he] at hi
          simp at hi
        have hdrop : t.drop n ≠ [] := by
          intro he
          rw [he, chunkText_nil] at hne
          exact hne rfl
        have hlen : n < t.length := by
          by_contra hle
          exact hdrop (List.drop_eq_nil_of_le (by omega))
        simp only [List.getD_cons_zero, List.length_take]
        omega
      | succ j =>
        simp only [List.getD_cons_succ]
        simp only [List.length_cons] at hi
        exact ih (t.drop n) (by simp only [List.length_drop]; omega) j
          (by omega)

/-- Every chunk except possibly the final one has length exactly `n`. -/
theorem chunkText_full (n : ℕ) (hn : n ≠ 0) (t : List Char) :
    ∀ i, i + 1 < (chunkText n t).length →
      ((chunkText n t).getD i []).length = n :=
  chunkText_full_aux n hn t.length t le_rfl

/-- String-level chunking, as the sources slice Python `str` values. -/
def chunkStr (n : ℕ) (s : String) : List String :=
  (chunkText n s.data).map String.mk

theorem chunkStr_data (n : ℕ) (s : String) :
    (chunkStr n s).map String.data = chunkText n s.data := by
  rw [chunkStr, List.map_map]
  have h : (String.data ∘ String.mk) = id := rfl
  rw [h, List.map_id]

theorem chunkStr_length (n : ℕ) (hn : n ≠ 0) (s : String) :
    (chunkStr n s).length = (s.length + n - 1) / n := by
  have h : s.length = s.data.length := rfl
  rw [chunkStr, List.length_map, chunkText_length n hn, h]

/-! ## Python sorting of (score, index) pairs

Both query paths build a list of `(score, chunk_index)` tuples and call
`list.sort(reverse=True)`.  Python compares tuples lexicographically, so the
resulting order is descending by score with ties broken by DESCENDING index.
Because the indices in the list are pairwise distinct, this order is
antisymmetric on the elements involved and the sorted permutation is unique,
so `List.insertionSort` with the same order is a faithful model of timsort. -/

/-- `pyDescOrd a b` holds when tuple `a` may precede tuple `b` in the output
of `list.sort(reverse=True)`: strictly larger score, or equal score and
larger-or-equal index. -/
def pyDescOrd (a b : ℚ × ℕ) : Prop :=
  b.1 < a.1 ∨ (a.1 = b.1 ∧ b.2 ≤ a.2)

instance : DecidableRel pyDescOrd := fun a b => by
  unfold pyDescOrd; infer_instance

instance : IsTotal (ℚ × ℕ) pyDescOrd := by
  constructor
  intro a b
  rcases lt_trichotomy a.1 b.1 with h | h | h
  · exact Or.inr (Or.inl h)
  · rcases le_total a.2 b.2 with h2 | h2
    · exact Or.inr (Or.inr ⟨h.symm, h2⟩)
    · exact Or.inl (Or.inr ⟨h, h2⟩)
  · exact Or.inl (Or.inl h)

instance : IsTrans (ℚ × ℕ) pyDescOrd := by
  constructor
  intro a b c hab hbc
  rcases hab with h1 | ⟨h1, h2⟩
  · rcases hbc with h3 | ⟨h3, h4⟩
    · exact Or.inl (lt_trans h3 h1)
    · exact Or.inl (by rw [← h3]; exact h1)
  · rcases hbc with h3 | ⟨h3, h4⟩
    · exact Or.inl (by rw [h1]; exact h3)
    · exact Or.inr ⟨h1.trans h3, le_trans h4 h2⟩

instance : IsAntisymm (ℚ × ℕ) pyDescOrd := by
  constructor
  rintro ⟨a1, a2⟩ ⟨b1, b2⟩ hab hba
  rcases hab with h1 | ⟨h1, h2⟩
  · rcases hba with h3 | ⟨h3, h4⟩
    · exact absurd (lt_trans h1 h3) (lt_irrefl _)
    · exact absurd h1 (by simp_all)
  · rcases hba with h3 | ⟨h3, h4⟩
    · exact absurd h3 (by simp_all)
    · simp only at h1 h2 h4
      rw [h1, le_antisymm h4 h2]

/-- `results.sort(reverse=True)` on a Python list of `(score, index)` pairs. -/
def pySortDesc (l : List (ℚ × ℕ)) : List (ℚ × ℕ) :=
  l.insertionSort pyDescOrd

/-! ## Tokenization

`re.findall(r"\w+", s)` extracts maximal runs of word characters and
`s.split()` extracts maximal runs of non-whitespace characters; both are
instances of `splitRuns`.  The character classes use the ASCII reading of
`\w` and of Python whitespace, which covers all text the services handle. -/

/-- Accumulator loop for `splitRuns`; `acc` holds the current run reversed. -/
def splitRunsAux (p : Char → Bool) : List Char → List Char → List (List Char)
  | [], acc => if acc = [] then [] else [acc.reverse]
  | c :: rest, acc =>
    if p c then splitRunsAux p rest (c :: acc)
    else if acc = [] then splitRunsAux p rest []
    else acc.reverse :: splitRunsAux p rest []

/-- Maximal runs of characters satisfying `p`. -/
def splitRuns (p : Char → Bool) (l : List Char) : List (List Char) :=
  splitRunsAux p l []

/-- Python `\w`: alphanumeric or underscore (ASCII model). -/
def isWordChar (c : Char) : Bool := c.isAlphanum || c = '_'

/-- `s.lower()` composed with extraction of the code points. -/
def pyLower (s : String) : List Char := s.data.map Char.toLower

/-- `re.findall(r"\w+", l)` on a list of characters. -/
def wordTokens (l : List Char) : List (List Char) := splitRuns isWordChar l

/-- `str.split()` with no arguments: split on whitespace runs. -/
def wsTokens (l : List Char) : List (List Char) :=
  splitRuns (fun c => !c.isWhitespace) l

/-- `needle in hay` for Python strings: substring containment. -/
def containsSub (needle hay : List Char) : Bool :=
  hay.tails.any (fun t => needle.isPrefixOf t)

/-! ## simple_rag_service.py: per-user lexical store -/

/-- Metadata dict `{"text": ..., "source": ..., "user_id": ...}` used by
`simple_rag_service`. -/
structure SRMeta where
  text : String
  source : String
  userId : String
deriving DecidableEq

/-- The query result shape `{"ids", "distances", "metadatas", "documents"}`. -/
structure QueryResult (μ : Type) where
  ids : List String
  distances : List ℚ
  metadatas : List μ
  documents : List String
deriving DecidableEq

/-- The all-empty result. -/
def emptyResult {μ : Type} : QueryResult μ := ⟨[], [], [], []⟩

/-- State of a `SimpleRAG` instance: `user_documents` and `user_metadatas`
dictionaries, modelled as total functions with default `[]` (all reads in the
source go through `dict.get(user_id, [])` or initialize-then-extend). -/
structure SimpleState where
  userDocuments : String → List String
  userMetadatas : String → List SRMeta

/-- The empty `SimpleRAG()` state. -/
def initialSimpleState : SimpleState := ⟨fun _ => [], fun _ => []⟩

/-- Return value `{"count": ..., "total": ...}` of `add_documents`. -/
structure AddResult where
  count : ℕ
  total : ℕ
deriving DecidableEq

/-- `SimpleRAG.add_documents(texts, user_id, metadatas)`.  When `metadatas`
is `None` a default record is generated per text; otherwise each record gets
its `user_id` field overwritten.  The texts and records are appended to the
per-user lists. -/
def addDocumentsSR (st : SimpleState) (texts : List String) (u : String)
    (metas : Option (List SRMeta)) : SimpleState × AddResult :=
  if texts = [] then (st, ⟨0, (st.userDocuments u).length⟩)
  else
    let ms := match metas with
      | none => texts.enum.map (fun p => ⟨p.2, "doc_" ++ toString p.1, u⟩)
      | some l => l.map (fun m => { m with userId := u })
    (⟨fun v => if v = u then st.userDocuments u ++ texts else st.userDocuments v,
      fun v => if v = u then st.userMetadatas u ++ ms else st.userMetadatas v⟩,
     ⟨texts.length, (st.userDocuments u).length + texts.length⟩)

/-- Return value of `ingest_file`: either the no-readable-text error dict
`{"count": 0, "ids": [], "error": msg}` or the `add_documents` result. -/
inductive SRIngestResult where
  | noText (count : ℕ) (ids : List String) (error : String)
  | added (r : AddResult)
deriving DecidableEq

/-- `ingest_file(file_path, source, user_id)` of `simple_rag_service`.
`rawText` is the decoded text delivered by the file-reading collaborator
(`_read_text_file`), which returns `""` for unreadable input. -/
def ingestFileSR (st : SimpleState) (filePath : String) (rawText : String)
    (source : Option String) (u : Option String) : SimpleState × SRIngestResult :=
  if rawText = "" then
    (st, .noText 0 [] ("No readable text in " ++ filePath))
  else
    let chunks := chunkStr 1000 rawText
    let meta : SRMeta := ⟨rawText, source.getD filePath, u.getD "default"⟩
    let r := addDocumentsSR st chunks (u.getD "default")
      (some (chunks.map (fun _ => meta)))
    (r.1, .added r.2)

/-- `SimpleRAG.clear_user_documents(user_id)`: delete the per-user entries
(observationally, reset them to `[]`). -/
def clearUserSR (st : SimpleState) (u : String) : SimpleState :=
  ⟨fun v => if v = u then [] else st.userDocuments v,
   fun v => if v = u then [] else st.userMetadatas v⟩

/-- The scored and reverse-sorted `(score, index)` list built by
`SimpleRAG.query` before truncation, for a backend scorer `sim`. -/
def scoredPairs (sim : String → String → ℚ) (q : String)
    (docs : List String) : List (ℚ × ℕ) :=
  pySortDesc (docs.enum.map (fun p => (sim q p.2, p.1)))

/-- Body of `SimpleRAG.query` given the looked-up per-user lists. -/
def queryCore (sim : String → String → ℚ) (docs : List String)
    (metas : List SRMeta) (q : String) (k : ℕ) : QueryResult SRMeta :=
  if docs.length = 0 then emptyResult
  else
    let top := (scoredPairs sim q docs).take k
    ⟨top.map (fun p => "doc_" ++ toString p.2),
     top.map (fun p => p.1),
     top.map (fun p => metas.getD p.2 ⟨"", "", ""⟩),
     top.map (fun p => docs.getD p.2 "")⟩

/-- `SimpleRAG.query(query, user_id, top_k)`, parametrized by the active
similarity backend `sim` (the source calls `self.simple_similarity`). -/
def querySR (sim : String → String → ℚ) (st : SimpleState) (q u : String)
    (k : ℕ) : QueryResult SRMeta :=
  queryCore sim (st.userDocuments u) (st.userMetadatas u) q k

/-! ## difflib.SequenceMatcher

`simple_similarity` calls `SequenceMatcher(None, a, b).ratio()`.  The model
below embeds the Ratcliff-Obershelp computation: repeatedly find the longest
matching block (ties resolved to the smallest start index in `a`, then in
`b`, as the difflib scan does), recurse on both sides, and sum the matched
lengths.  The autojunk heuristic of difflib only activates on texts of 200 or
more characters and is not modelled. -/

/-- `a[i:i+k] == b[j:j+k]`, with the block lying inside both sequences. -/
def isBlock (a b : List Char) (i j k : ℕ) : Bool :=
  decide (i + k ≤ a.length) && decide (j + k ≤ b.length) &&
    decide ((a.drop i).take k = (b.drop j).take k)

theorem isBlock_le {a b : List Char} {i j k : ℕ}
    (h : isBlock a b i j k = true) : i + k ≤ a.length ∧ j + k ≤ b.length := by
  simp only [isBlock, Bool.and_eq_true, decide_eq_true_eq] at h
  exact ⟨h.1.1, h.1.2⟩

/-- First block of length `k` in scan order (smallest `i`, then `j`). -/
def findBlock (a b : List Char) (k : ℕ) : Option (ℕ × ℕ) :=
  (List.range (a.length + 1)).findSome? (fun i =>
    (List.range (b.length + 1)).findSome? (fun j =>
      if isBlock a b i j k then some (i, j) else none))

theorem findBlock_isBlock {a b : List Char} {k i j : ℕ}
    (h : findBlock a b k = some (i, j)) : isBlock a b i j k = true := by
  obtain ⟨i1, hi1, h1⟩ := List.exists_of_findSome?_eq_some h
  obtain ⟨j1, hj1, h2⟩ := List.exists_of_findSome?_eq_some h1
  by_cases hb : isBlock a b i1 j1 k
  · simp only [hb, if_true, Option.some.injEq, Prod.mk.injEq] at h2
    rw [← h2.1, ← h2.2]
    exact hb
  · simp [hb] at h2

/-- Search block lengths downward from `K`. -/
def findLongestAux (a b : List Char) : ℕ → ℕ × ℕ × ℕ
  | 0 => (0, 0, 0)
  | k + 1 =>
    match findBlock a b (k + 1) with
    | some p => (p.1, p.2, k + 1)
    | none => findLongestAux a b k

/-- difflib `find_longest_match` over the whole strings (no junk). -/
def findLongestMatch (a b : List Char) : ℕ × ℕ × ℕ :=
  findLongestAux a b (min a.length b.length)

/-- Fuel-indexed recursion of `get_matching_blocks`: the found block splits
the sequences, both sides are processed recursively, matched sizes are
summed.  Every recursive call strictly shortens `a` (a found block has
positive length and lies inside `a`), so `fuel = a.length` never runs out. -/
def matchedCharsAux : ℕ → List Char → List Char → ℕ
  | 0, _, _ => 0
  | fuel + 1, a, b =>
    match findLongestMatch a b with
    | (i, j, k) =>
      if k = 0 then 0
      else
        k + matchedCharsAux fuel (a.take i) (b.take j)
          + matchedCharsAux fuel (a.drop (i + k)) (b.drop (j + k))

/-- Total number of matched characters of `SequenceMatcher`
(`sum(size for _, _, size in get_matching_blocks())`). -/
def matchedChars (a b : List Char) : ℕ :=
  matchedCharsAux a.length a b

/-- `SequenceMatcher.ratio()`: `2*M / (len(a)+len(b))`, and `1` when both
sequences are empty (difflib `_calculate_ratio`). -/
def seqRatio (a b : List Char) : ℚ :=
  if a.length + b.length = 0 then 1
  else 2 * (matchedChars a b : ℚ) / ((a.length : ℚ) + (b.length : ℚ))

/-- `SimpleRAG.simple_similarity(query, text)`: word-set overlap combined
with the sequence ratio, returning `0.0` outright when the query has no word
tokens. -/
def simpleSimilarity (q c : String) : ℚ :=
  let ql := pyLower q
  let cl := pyLower c
  let qw := (wordTokens ql).dedup
  let cw := (wordTokens cl).dedup
  if qw = [] then 0
  else
    let common := qw.filter (fun w => w ∈ cw)
    ((common.length : ℚ) / (qw.length : ℚ)) * (7/10) + seqRatio ql cl * (3/10)

/-- The score formula exactly as claim C3 words it: always
`0.7 * wordOverlap + 0.3 * sequenceSimilarity`, where `wordOverlap` is `0`
when the query has no word tokens. -/
def claimLexScore (q c : String) : ℚ :=
  let ql := pyLower q
  let cl := pyLower c
  let qw := (wordTokens ql).dedup
  let cw := (wordTokens cl).dedup
  let overlap : ℚ :=
    if qw = [] then 0
    else ((qw.filter (fun w => w ∈ cw)).length : ℚ) / (qw.length : ℚ)
  (7/10) * overlap + (3/10) * seqRatio ql cl

/-! ## simple_working_rag.py: global keyword store -/

/-- Metadata dict `{"source": ..., "user_id": ...}`. -/
structure SWMeta where
  source : String
  userId : String
deriving DecidableEq

/-- Module-level `documents` / `metadatas` globals. -/
structure WorkingState where
  documents : List String
  metadatas : List SWMeta
deriving DecidableEq

/-- The initial (empty) module state. -/
def initialWorkingState : WorkingState := ⟨[], []⟩

/-- Result dict of `simple_working_rag.ingest`. -/
structure SWIngestResult where
  count : ℕ
  ids : List String
  error : Option String
deriving DecidableEq

/-- `ingest(req)` of `simple_working_rag`.  `rawText` is the text decoded by
`_read_text_file`, which returns `""` for unreadable or unsupported input. -/
def ingestSW (st : WorkingState) (filePath rawText : String)
    (source userId : Option String) : WorkingState × SWIngestResult :=
  if rawText = "" then
    (st, ⟨0, [], some ("No readable text in " ++ filePath)⟩)
  else
    let chunks := chunkStr 1000 rawText
    let start := st.documents.length
    let meta : SWMeta := ⟨source.getD filePath, userId.getD "default"⟩
    (⟨st.documents ++ chunks, st.metadatas ++ chunks.map (fun _ => meta)⟩,
     ⟨chunks.length,
      (List.range' start chunks.length).map (fun i => "doc_" ++ toString i),
      none⟩)

/-- Keyword score of one document in `simple_working_rag.query`:
`len(query_words ∩ doc_words) / max(len(query_words), 1)`. -/
def swScore (qwords : List (List Char)) (doc : String) : ℚ :=
  ((qwords.filter
      (fun w => w ∈ (wsTokens (pyLower doc)).dedup)).length : ℚ) /
    ((max qwords.length 1 : ℕ) : ℚ)

/-- The loop body `if score > 0: results.append((score, i))` of
`simple_working_rag.query`, as a `filterMap` step. -/
def swScorePair (qwords : List (List Char)) (p : ℕ × String) :
    Option (ℚ × ℕ) :=
  let s := swScore qwords p.2
  if 0 < s then some (s, p.1) else none

/-- `query(req)` of `simple_working_rag`: keep only strictly positive
scores, sort descending, take `top_k`. -/
def querySW (st : WorkingState) (q : String) (k : ℕ) : QueryResult SWMeta :=
  if st.documents.length = 0 then emptyResult
  else
    let qwords := (wsTokens (pyLower q)).dedup
    let results := st.documents.enum.filterMap (swScorePair qwords)
    let top := (pySortDesc results).take k
    ⟨top.map (fun p => "doc_" ++ toString p.2),
     top.map (fun p => p.1),
     top.map (fun p => st.metadatas.getD p.2 ⟨"", ""⟩),
     top.map (fun p => st.documents.getD p.2 "")⟩

/-! ## ragPipelineService.py: pre-filter pipeline -/

/-- The fixed conversational (short-greeting) lexicon of `query_documents`. -/
def conversationalKeywords : List String :=
  ["hello", "hi", "hey", "thanks", "thank you", "goodbye", "bye",
   "how are you", "what\u0027s up", "nice to meet you", "good morning",
   "good afternoon", "good evening", "good night"]

/-- The translation trigger terms of `query_documents`. -/
def translationKeywords : List String :=
  ["translate", "translation", "spanish", "french", "german", "italian",
   "portuguese"]

/-- `any(keyword in query_lower for keyword in conversational_keywords)`. -/
def hasGreetingTerm (q : String) : Bool :=
  conversationalKeywords.any (fun kw => containsSub kw.data (pyLower q))

/-- `any(keyword in query_lower for keyword in translation_keywords)`. -/
def hasTranslationTerm (q : String) : Bool :=
  translationKeywords.any (fun kw => containsSub kw.data (pyLower q))

/-- `is_conversational`: a greeting term occurs as a substring and the query
has at most 3 whitespace tokens. -/
def isConversational (q : String) : Bool :=
  hasGreetingTerm q && decide ((wsTokens (pyLower q)).length ≤ 3)

/-- The part of `query_documents` after the conversational pre-filter:
translation full-corpus mode, otherwise the first document. -/
def afterConvFilter {μ : Type} (q : String) (docs : List String)
    (metas : List μ) : QueryResult μ :=
  if hasTranslationTerm q then
    ⟨(List.range docs.length).map (fun i => "doc_" ++ toString i),
     List.replicate docs.length 0,
     metas,
     docs⟩
  else
    ⟨["doc_0"], [0], metas.take 1, docs.take 1⟩

/-- `query_documents(query, documents, metadatas)` of ragPipelineService. -/
def queryDocuments {μ : Type} (q : String) (docs : List String)
    (metas : List μ) : QueryResult μ :=
  if docs = [] then emptyResult
  else if isConversational q then emptyResult
  else afterConvFilter q docs metas

/-! ## local_rag_service.py: embedding + flat index

The embedding collaborator (`SentenceTransformer.encode`) is a parameter
`embed : String → List ℚ`; `numpy.vstack` and `faiss.IndexFlatIP.add` are
modelled with the exceptions they raise on shape mismatch. -/

/-- Metadata dict `{"text": ..., "source": ...}` of `local_rag_service`. -/
structure LMeta where
  text : String
  source : String
deriving DecidableEq

/-- Python exception classes that the vector path can raise.
`dimensionMismatchError` is the typed error postulated by the spec; no code
path produces it.  `valueError` is the `numpy.vstack` shape error,
`assertionError` the faiss `add` dimension assertion, `attributeError` the
access of `.add` on a `None` index. -/
inductive PyError where
  | dimensionMismatchError
  | valueError
  | assertionError
  | attributeError
deriving DecidableEq

/-- State of a `LocalRAG` instance: `documents`, `metadatas`, the stacked
`embeddings` matrix (`None` before the first add), and the faiss index as
its dimension plus stored vectors. -/
structure LocalState where
  documents : List String
  metadatas : List LMeta
  embeddings : Option (List (List ℚ))
  index : Option (ℕ × List (List ℚ))
deriving DecidableEq

/-- Freshly constructed `LocalRAG()`. -/
def initialLocalState : LocalState := ⟨[], [], none, none⟩

deriving instance DecidableEq for Except

/-- `LocalRAG.add_documents(texts, metadatas)` of `local_rag_service`.
On the first add, state is assigned and the index created with the dimension
of the first embedding row; afterwards `np.vstack` raises `ValueError`
before any mutation when a new row does not match the established column
count, and `index.add` asserts the index dimension after documents were
already extended. -/
def addDocumentsLocal (embed : String → List ℚ) (st : LocalState)
    (texts : List String) (metas : Option (List LMeta)) :
    LocalState × Except PyError AddResult :=
  if texts = [] then (st, .ok ⟨0, st.documents.length⟩)
  else
    let ms := match metas with
      | none => texts.enum.map (fun p => ⟨p.2, "doc_" ++ toString p.1⟩)
      | some l => l
    let embs := texts.map embed
    match st.embeddings with
    | none =>
      let d := (embs.headD []).length
      if embs.all (fun v => v.length = d) then
        (⟨texts, ms, some embs, some (d, embs)⟩,
         .ok ⟨texts.length, texts.length⟩)
      else
        (⟨texts, ms, some embs, some (d, [])⟩, .error .assertionError)
    | some old =>
      let d := (old.headD []).length
      if embs.all (fun v => v.length = d) then
        match st.index with
        | some idx =>
          if embs.all (fun v => v.length = idx.1) then
            (⟨st.documents ++ texts, st.metadatas ++ ms, some (old ++ embs),
              some (idx.1, idx.2 ++ embs)⟩,
             .ok ⟨texts.length, st.documents.length + texts.length⟩)
          else
            (⟨st.documents ++ texts, st.metadatas ++ ms, some (old ++ embs),
              some idx⟩, .error .assertionError)
        | none =>
          (⟨st.documents ++ texts, st.metadatas ++ ms, some (old ++ embs),
            none⟩, .error .attributeError)
      else
        (st, .error .valueError)

/-! ## Bridging lemmas -/

theorem chunkStr_getD_length (n : ℕ) (hn : n ≠ 0) (s : String) :
    ∀ i, i + 1 < (chunkStr n s).length → ((chunkStr n s).getD i "").length = n := by
  intro i hi
  have hlen : (chunkStr n s).length = (chunkText n s.data).length := by
    rw [chunkStr, List.length_map]
  have hi2 : i < (chunkText n s.data).length := by
    rw [hlen] at hi; omega
  have hgd : (chunkStr n s).getD i "" =
      String.mk ((chunkText n s.data).getD i []) := by
    rw [chunkStr, List.getD_eq_getElem?_getD, List.getD_eq_getElem?_getD,
      List.getElem?_map, List.getElem?_eq_getElem hi2]
    rfl
  rw [hgd]
  show ((chunkText n s.data).getD i []).length = n
  exact chunkText_full n hn s.data i (by rw [hlen] at hi; exact hi)

/-! ## Claim theorems -/

/-- C1: ingest with the default chunk size 1000 splits a non-empty text into
exactly `ceil(len(t)/1000)` chunks with no overlap: every chunk except
possibly the final one has length 1000, all chunks are non-empty and at most
1000 characters, their concatenation in order equals the text, and the
per-tenant document count grows by exactly the chunk count. -/
theorem c1_ingest_chunking (st : SimpleState) (filePath t : String)
    (src u : Option String) (ht : t ≠ "") :
    (chunkStr 1000 t).length = (t.length + 999) / 1000 ∧
    ((chunkStr 1000 t).map String.data).flatten = t.data ∧
    (∀ i, i + 1 < (chunkStr 1000 t).length →
      ((chunkStr 1000 t).getD i "").length = 1000) ∧
    (∀ c ∈ chunkStr 1000 t, 0 < c.length ∧ c.length ≤ 1000) ∧
    ((ingestFileSR st filePath t src u).1.userDocuments
        (u.getD "default")).length
      = (st.userDocuments (u.getD "default")).length + (t.length + 999) / 1000 := by
  have hn : (1000 : ℕ) ≠ 0 := by omega
  have hceil : t.length + 1000 - 1 = t.length + 999 := by omega
  have hlen : (chunkStr 1000 t).length = (t.length + 999) / 1000 := by
    rw [chunkStr_length 1000 hn t, hceil]
  refine ⟨hlen, ?_, ?_, ?_, ?_⟩
  · rw [chunkStr_data, chunkText_join 1000 hn]
  · exact chunkStr_getD_length 1000 hn t
  · intro c hc
    rw [chunkStr] at hc
    obtain ⟨x, hx, hxc⟩ := List.mem_map.mp hc
    have : c.length = x.length := by rw [← hxc]; rfl
    rw [this]
    exact chunkText_mem_length 1000 hn t.data x hx
  · have htd : t.data ≠ [] := fun h => ht (String.ext (by rw [h]))
    have hne : chunkStr 1000 t ≠ [] := by
      intro h
      rw [h] at hlen
      have hpos : 0 < (t.length + 999) / 1000 := by
        apply Nat.div_pos
        · have h1 : 0 < t.length := List.length_pos.mpr htd
          omega
        · omega
      simp at hlen
      omega
    unfold ingestFileSR addDocumentsSR
    simp [ht, hne, hlen]

/-- C1 witness: ingesting the two-character text "ab" into a fresh store. -/
theorem c1_witness :
    ("ab" : String) ≠ "" ∧
    ((chunkStr 1000 "ab").length = ("ab".length + 999) / 1000 ∧
    ((chunkStr 1000 "ab").map String.data).flatten = "ab".data ∧
    (∀ i, i + 1 < (chunkStr 1000 "ab").length →
      ((chunkStr 1000 "ab").getD i "").length = 1000) ∧
    (∀ c ∈ chunkStr 1000 "ab", 0 < c.length ∧ c.length ≤ 1000) ∧
    ((ingestFileSR initialSimpleState "a.txt" "ab" none none).1.userDocuments
        ((none : Option String).getD "default")).length
      = (initialSimpleState.userDocuments
          ((none : Option String).getD "default")).length
        + ("ab".length + 999) / 1000) :=
  ⟨by decide,
   c1_ingest_chunking initialSimpleState "a.txt" "ab" none none (by decide)⟩

/-- C3 counterexample: for the query `"!"` (no word tokens) against the
chunk `"!"`, the code returns `0.0`, while the claimed unconditional formula
`0.7 * wordOverlap + 0.3 * sequenceSimilarity` evaluates to `0.3` (the
sequence ratio of the two equal strings is 1). -/
theorem c3_counterexample :
    simpleSimilarity "!" "!" = 0 ∧ claimLexScore "!" "!" = 3 / 10 ∧
      simpleSimilarity "!" "!" ≠ claimLexScore "!" "!" := by
  decide

/-- C3 (amended): the lexical score equals
`0.7 * wordOverlap + 0.3 * sequenceSimilarity` whenever the query has at
least one word token; when the query has no word tokens the code skips the
sequence term and returns 0 outright. -/
theorem c3_lexical_formula (q c : String) :
    simpleSimilarity q c =
      if (wordTokens (pyLower q)).dedup = [] then 0 else claimLexScore q c := by
  unfold simpleSimilarity claimLexScore
  by_cases h : (wordTokens (pyLower q)).dedup = []
  · simp [h]
  · simp only [h, if_false]
    ring

/-- C4: a query for a tenant that is unknown or has an empty corpus returns
the all-empty result (and, the query function being total, signals no
error). -/
theorem c4_empty_tenant_query (sim : String → String → ℚ) (st : SimpleState)
    (q u : String) (k : ℕ) (h : st.userDocuments u = []) :
    querySR sim st q u k = emptyResult := by
  unfold querySR queryCore
  rw [h]
  simp

/-- C4 witness: querying the empty tenant `"t2"` of a fresh store. -/
theorem c4_witness :
    initialSimpleState.userDocuments "t2" = [] ∧
    querySR simpleSimilarity initialSimpleState "what is this" "t2" 5
      = emptyResult :=
  ⟨rfl,
   c4_empty_tenant_query simpleSimilarity initialSimpleState "what is this"
     "t2" 5 rfl⟩

/-- C5 counterexample: an ingest whose decoded text is empty does return
count 0, empty ids and an error, and leaves the store unchanged — but the
error string is `"No readable text in <path>"`, not the exact value
`"no readable text"` stated by the claim. -/
theorem c5_counterexample :
    (ingestSW initialWorkingState "f.txt" "" none none).2.error
        = some ("No readable text in f.txt") ∧
    (ingestSW initialWorkingState "f.txt" "" none none).2.count = 0 ∧
    (ingestSW initialWorkingState "f.txt" "" none none).2.ids = [] ∧
    (ingestSW initialWorkingState "f.txt" "" none none).2.error
        ≠ some "no readable text" := by
  decide

/-- C5 (amended): when the raw text is empty (also the case of an
undecodable source, for which the reader collaborator yields `""`), ingest
returns `{count: 0, ids: [], error: "No readable text in <path>"}` and the
stored corpus is unchanged; the embedded call is a total function, so
nothing is raised past the boundary. -/
theorem c5_no_readable_text (st : WorkingState) (filePath rawText : String)
    (source userId : Option String) (h : rawText = "") :
    ingestSW st filePath rawText source userId =
      (st, ⟨0, [], some ("No readable text in " ++ filePath)⟩) := by
  unfold ingestSW
  rw [h]
  simp

/-- C5 witness: the empty-text ingest at a concrete path. -/
theorem c5_witness :
    ("" : String) = "" ∧
    ingestSW initialWorkingState "g.txt" "" none none =
      (initialWorkingState, ⟨0, [], some ("No readable text in " ++ "g.txt")⟩) :=
  ⟨rfl, c5_no_readable_text initialWorkingState "g.txt" "" none none rfl⟩

/-- C7: a query containing a greeting term with at most 3 whitespace tokens
short-circuits to the empty result (also on a non-empty corpus, and without
touching any chunk), while any query with more than 3 tokens passes the
conversational pre-filter and proceeds to the ranking stage. -/
theorem c7_greeting_prefilter {μ : Type} (q : String) (docs : List String)
    (metas : List μ) :
    (hasGreetingTerm q = true → (wsTokens (pyLower q)).length ≤ 3 →
      queryDocuments q docs metas = emptyResult) ∧
    (3 < (wsTokens (pyLower q)).length → docs ≠ [] →
      queryDocuments q docs metas = afterConvFilter q docs metas) := by
  constructor
  · intro h1 h2
    unfold queryDocuments
    by_cases hd : docs = []
    · simp [hd]
    · have hc : isConversational q = true := by
        unfold isConversational
        simp [h1, h2]
      simp [hd, hc]
  · intro h1 h2
    have hc : isConversational q = false := by
      unfold isConversational
      simp only [Bool.and_eq_false_iff, decide_eq_false_iff_not]
      right
      omega
    unfold queryDocuments
    simp [h2, hc]

/-- C7 witness: `"hi"` short-circuits on a non-empty corpus; the 5-token
query `"hi, please explain chapter 2"` passes the pre-filter. -/
theorem c7_witness :
    (queryDocuments "hi" ["alpha"] (["m"] : List String) = emptyResult) ∧
    (queryDocuments "hi, please explain chapter 2" ["alpha"]
        (["m"] : List String)
      = afterConvFilter "hi, please explain chapter 2" ["alpha"] ["m"]) :=
  ⟨(c7_greeting_prefilter "hi" ["alpha"] ["m"]).1 (by decide) (by decide),
   (c7_greeting_prefilter "hi, please explain chapter 2" ["alpha"] ["m"]).2
     (by decide) (by decide)⟩

/-- C8: a non-greeting query containing a translation trigger term bypasses
ranking and returns the entire corpus: one id per stored chunk, all
metadata records and all documents (`query_documents` takes no top-k
parameter, so no truncation can apply). -/
theorem c8_translation_full_corpus {μ : Type} (q : String)
    (docs : List String) (metas : List μ) (h1 : isConversational q = false)
    (h2 : hasTranslationTerm q = true) (h3 : docs ≠ []) :
    queryDocuments q docs metas =
      ⟨(List.range docs.length).map (fun i => "doc_" ++ toString i),
       List.replicate docs.length 0, metas, docs⟩ := by
  unfold queryDocuments afterConvFilter
  simp [h1, h2, h3]

/-- C8 witness: a translation query over a two-chunk corpus. -/
theorem c8_witness :
    queryDocuments "please translate into spanish" ["alpha", "beta"]
        (["m1", "m2"] : List String) =
      ⟨(List.range (["alpha", "beta"] : List String).length).map
          (fun i => "doc_" ++ toString i),
       List.replicate (["alpha", "beta"] : List String).length 0,
       ["m1", "m2"], ["alpha", "beta"]⟩ :=
  c8_translation_full_corpus "please translate into spanish"
    ["alpha", "beta"] ["m1", "m2"] (by decide) (by decide) (by decide)

/-! Frame lemmas for tenant isolation. -/

theorem addDocumentsSR_frame_docs (st : SimpleState) (texts : List String)
    (u : String) (metas : Option (List SRMeta)) (b : String) (h : b ≠ u) :
    (addDocumentsSR st texts u metas).1.userDocuments b
      = st.userDocuments b := by
  unfold addDocumentsSR
  by_cases ht : texts = [] <;> simp [ht, h]

theorem addDocumentsSR_frame_metas (st : SimpleState) (texts : List String)
    (u : String) (metas : Option (List SRMeta)) (b : String) (h : b ≠ u) :
    (addDocumentsSR st texts u metas).1.userMetadatas b
      = st.userMetadatas b := by
  unfold addDocumentsSR
  by_cases ht : texts = [] <;> simp [ht, h]

theorem ingestFileSR_frame_docs (st : SimpleState) (filePath rawText : String)
    (src : Option String) (a b : String) (h : b ≠ a) :
    (ingestFileSR st filePath rawText src (some a)).1.userDocuments b
      = st.userDocuments b := by
  unfold ingestFileSR
  by_cases hr : rawText = ""
  · simp [hr]
  · rw [if_neg hr]
    exact addDocumentsSR_frame_docs st (chunkStr 1000 rawText) a _ b h

theorem ingestFileSR_frame_metas (st : SimpleState) (filePath rawText : String)
    (src : Option String) (a b : String) (h : b ≠ a) :
    (ingestFileSR st filePath rawText src (some a)).1.userMetadatas b
      = st.userMetadatas b := by
  unfold ingestFileSR
  by_cases hr : rawText = ""
  · simp [hr]
  · rw [if_neg hr]
    exact addDocumentsSR_frame_metas st (chunkStr 1000 rawText) a _ b h

theorem clearUserSR_frame_docs (st : SimpleState) (a b : String) (h : b ≠ a) :
    (clearUserSR st a).userDocuments b = st.userDocuments b := by
  unfold clearUserSR
  simp [h]

theorem clearUserSR_frame_metas (st : SimpleState) (a b : String) (h : b ≠ a) :
    (clearUserSR st a).userMetadatas b = st.userMetadatas b := by
  unfold clearUserSR
  simp [h]

/-- C9: operations for tenant `a` (direct document addition, file ingestion,
whole-tenant clear) leave the documents and metadata of a distinct tenant
`b` unchanged, and any query for `b` returns the same result before and
after; queries themselves return no modified state. -/
theorem c9_tenant_isolation (sim : String → String → ℚ) (st : SimpleState)
    (a b : String) (texts : List String) (metas : Option (List SRMeta))
    (filePath rawText : String) (src : Option String) (q : String) (k : ℕ)
    (hab : b ≠ a) :
    ((addDocumentsSR st texts a metas).1.userDocuments b
        = st.userDocuments b ∧
     (addDocumentsSR st texts a metas).1.userMetadatas b
        = st.userMetadatas b ∧
     querySR sim (addDocumentsSR st texts a metas).1 q b k
        = querySR sim st q b k) ∧
    ((ingestFileSR st filePath rawText src (some a)).1.userDocuments b
        = st.userDocuments b ∧
     (ingestFileSR st filePath rawText src (some a)).1.userMetadatas b
        = st.userMetadatas b ∧
     querySR sim (ingestFileSR st filePath rawText src (some a)).1 q b k
        = querySR sim st q b k) ∧
    ((clearUserSR st a).userDocuments b = st.userDocuments b ∧
     (clearUserSR st a).userMetadatas b = st.userMetadatas b ∧
     querySR sim (clearUserSR st a) q b k = querySR sim st q b k) := by
  refine ⟨⟨addDocumentsSR_frame_docs st texts a metas b hab,
           addDocumentsSR_frame_metas st texts a metas b hab, ?_⟩,
          ⟨ingestFileSR_frame_docs st filePath rawText src a b hab,
           ingestFileSR_frame_metas st filePath rawText src a b hab, ?_⟩,
          ⟨clearUserSR_frame_docs st a b hab,
           clearUserSR_frame_metas st a b hab, ?_⟩⟩
  · unfold querySR
    rw [addDocumentsSR_frame_docs st texts a metas b hab,
      addDocumentsSR_frame_metas st texts a metas b hab]
  · unfold querySR
    rw [ingestFileSR_frame_docs st filePath rawText src a b hab,
      ingestFileSR_frame_metas st filePath rawText src a b hab]
  · unfold querySR
    rw [clearUserSR_frame_docs st a b hab,
      clearUserSR_frame_metas st a b hab]

/-- C9 witness: ingesting and clearing for tenant `"alice"` leaves tenant
`"bob"` untouched in a fresh store. -/
theorem c9_witness :
    ("bob" : String) ≠ "alice" ∧
    (((addDocumentsSR initialSimpleState ["x"] "alice" none).1.userDocuments
          "bob" = initialSimpleState.userDocuments "bob" ∧
      (addDocumentsSR initialSimpleState ["x"] "alice" none).1.userMetadatas
          "bob" = initialSimpleState.userMetadatas "bob" ∧
      querySR simpleSimilarity
          (addDocumentsSR initialSimpleState ["x"] "alice" none).1 "z" "bob" 3
        = querySR simpleSimilarity initialSimpleState "z" "bob" 3) ∧
     ((ingestFileSR initialSimpleState "p.txt" "y" none
          (some "alice")).1.userDocuments "bob"
        = initialSimpleState.userDocuments "bob" ∧
      (ingestFileSR initialSimpleState "p.txt" "y" none
          (some "alice")).1.userMetadatas "bob"
        = initialSimpleState.userMetadatas "bob" ∧
      querySR simpleSimilarity
          (ingestFileSR initialSimpleState "p.txt" "y" none (some "alice")).1
          "z" "bob" 3
        = querySR simpleSimilarity initialSimpleState "z" "bob" 3) ∧
     ((clearUserSR initialSimpleState "alice").userDocuments "bob"
        = initialSimpleState.userDocuments "bob" ∧
      (clearUserSR initialSimpleState "alice").userMetadatas "bob"
        = initialSimpleState.userMetadatas "bob" ∧
      querySR simpleSimilarity (clearUserSR initialSimpleState "alice")
          "z" "bob" 3
        = querySR simpleSimilarity initialSimpleState "z" "bob" 3)) :=
  ⟨by decide,
   c9_tenant_isolation simpleSimilarity initialSimpleState "alice" "bob"
     ["x"] none "p.txt" "y" none "z" 3 (by decide)⟩

/-! Helper facts for the keyword query of simple_working_rag. -/

theorem swScore_pos_iff (qwords : List (List Char)) (d : String) :
    0 < swScore qwords d ↔
      ∃ w ∈ qwords, w ∈ (wsTokens (pyLower d)).dedup := by
  unfold swScore
  constructor
  · intro h
    by_contra hno
    push_neg at hno
    have hf : qwords.filter
        (fun w => w ∈ (wsTokens (pyLower d)).dedup) = [] := by
      apply List.filter_eq_nil_iff.mpr
      intro a ha
      simp only [decide_eq_true_eq]
      exact hno a ha
    rw [hf] at h
    simp at h
  · rintro ⟨w, hw, hwd⟩
    have hl : 0 < (qwords.filter
        (fun w => w ∈ (wsTokens (pyLower d)).dedup)).length := by
      apply List.length_pos.mpr
      intro hnil
      have hmem := List.filter_eq_nil_iff.mp hnil w hw
      simp [hwd] at hmem
    apply div_pos
    · exact_mod_cast hl
    · have hmax : (1 : ℕ) ≤ max qwords.length 1 := le_max_right _ _
      exact_mod_cast Nat.lt_of_lt_of_le Nat.zero_lt_one hmax

theorem swScorePair_eq_some {qwords : List (List Char)} {x : ℕ × String}
    {p : ℚ × ℕ} (h : swScorePair qwords x = some p) :
    0 < swScore qwords x.2 ∧ p = (swScore qwords x.2, x.1) := by
  unfold swScorePair at h
  by_cases hs : 0 < swScore qwords x.2
  · simp only [hs, if_true, Option.some.injEq] at h
    exact ⟨hs, h.symm⟩
  · simp [hs] at h

/-- C10: every document returned by the keyword query of
`simple_working_rag` shares at least one lowercase whitespace token with the
query (only strictly positive scores are kept); a query sharing no token
with any stored document yields the all-empty result even on a non-empty
store; consequently the result can hold fewer than `min(top_k, count)`
entries. -/
theorem c10_keyword_matching (st : WorkingState) (q : String) (k : ℕ) :
    (∀ c ∈ (querySW st q k).documents,
      ∃ w ∈ (wsTokens (pyLower q)).dedup,
        w ∈ (wsTokens (pyLower c)).dedup) ∧
    ((∀ d ∈ st.documents, ∀ w ∈ (wsTokens (pyLower q)).dedup,
        w ∉ (wsTokens (pyLower d)).dedup) →
      querySW st q k = emptyResult) ∧
    (∃ (st2 : WorkingState) (q2 : String) (k2 : ℕ),
      st2.documents ≠ [] ∧
      (querySW st2 q2 k2).ids.length < min k2 st2.documents.length) := by
  refine ⟨?_, ?_, ?_⟩
  · intro c hc
    unfold querySW at hc
    by_cases hlen : st.documents.length = 0
    · simp [hlen, emptyResult] at hc
    · rw [if_neg hlen] at hc
      simp only [List.mem_map] at hc
      obtain ⟨p, hp, hpc⟩ := hc
      have hp1 : p ∈ pySortDesc (st.documents.enum.filterMap
          (swScorePair (wsTokens (pyLower q)).dedup)) :=
        List.mem_of_mem_take hp
      have hp2 : p ∈ st.documents.enum.filterMap
          (swScorePair (wsTokens (pyLower q)).dedup) :=
        (List.mem_insertionSort pyDescOrd).mp hp1
      obtain ⟨x, hx, hfx⟩ := List.mem_filterMap.mp hp2
      obtain ⟨hpos, hpx⟩ := swScorePair_eq_some hfx
      have hgd : st.documents.getD x.1 "" = x.2 := by
        rw [List.getD_eq_getElem?_getD, List.mem_enum_iff_getElem?.mp hx]
        rfl
      have hcx : c = x.2 := by
        rw [← hpc, hpx]
        exact hgd
      rw [hcx]
      exact (swScore_pos_iff _ x.2).mp hpos
  · intro hno
    unfold querySW
    by_cases hlen : st.documents.length = 0
    · rw [if_pos hlen]
    · rw [if_neg hlen]
      have hres : st.documents.enum.filterMap
          (swScorePair (wsTokens (pyLower q)).dedup) = [] := by
        apply List.filterMap_eq_nil_iff.mpr
        intro x hx
        have hd : x.2 ∈ st.documents := by
          have hg := List.mem_enum_iff_getElem?.mp hx
          exact List.getElem?_mem hg
        unfold swScorePair
        have hnpos : ¬ 0 < swScore (wsTokens (pyLower q)).dedup x.2 := by
          rw [swScore_pos_iff]
          rintro ⟨w, hw, hwd⟩
          exact hno x.2 hd w hw hwd
        simp [hnpos]
      simp [hres, pySortDesc, emptyResult]
  · refine ⟨⟨["alpha"], [⟨"s", "u"⟩]⟩, "zq", 4, by decide, by decide⟩

/-- C10 witness: the query `"hello"` over `["hello world"]` only returns
token-sharing documents, and the token-free query `"zq"` over `["alpha"]`
returns the all-empty result. -/
theorem c10_witness :
    (∀ c ∈ (querySW ⟨["hello world"], [⟨"s", "u"⟩]⟩ "hello" 5).documents,
      ∃ w ∈ (wsTokens (pyLower "hello")).dedup,
        w ∈ (wsTokens (pyLower c)).dedup) ∧
    querySW ⟨["alpha"], [⟨"s", "u"⟩]⟩ "zq" 4 = emptyResult :=
  ⟨(c10_keyword_matching ⟨["hello world"], [⟨"s", "u"⟩]⟩ "hello" 5).1,
   (c10_keyword_matching ⟨["alpha"], [⟨"s", "u"⟩]⟩ "zq" 4).2.1 (by decide)⟩

/-- C2 counterexample: on a tenant holding the two identical chunks
`["a", "a"]` and the query `"a"`, both chunks score 1, and the code returns
ids `["doc_1", "doc_0"]` — descending chunk id on ties, not the ascending
order the claim states; the `(score, index)` pairs of the full selection
violate the claimed ascending-tie order. -/
theorem c2_counterexample :
    (querySR simpleSimilarity ⟨fun _ => ["a", "a"], fun _ => []⟩
        "a" "u" 5).distances = [1, 1] ∧
    (querySR simpleSimilarity ⟨fun _ => ["a", "a"], fun _ => []⟩
        "a" "u" 5).ids = ["doc_1", "doc_0"] ∧
    (["doc_1", "doc_0"] : List String) ≠ ["doc_0", "doc_1"] ∧
    ¬ List.Pairwise
        (fun p r : ℚ × ℕ => r.1 < p.1 ∨ (p.1 = r.1 ∧ p.2 ≤ r.2))
        (scoredPairs simpleSimilarity "a" ["a", "a"]) := by
  decide

/-- C2 (amended): on a non-empty tenant, `SimpleRAG.query` scores every
chunk with the active backend and returns exactly the `min(topK, count)`
top-scoring chunks in descending score order — but ties are broken by
DESCENDING chunk id (`list.sort(reverse=True)` on `(score, index)` tuples),
not ascending: the selection dominates every omitted chunk in the
descending lexicographic order `pyDescOrd`. -/
theorem c2_query_ranking (sim : String → String → ℚ) (st : SimpleState)
    (q u : String) (k : ℕ) (h : st.userDocuments u ≠ []) :
    ∃ sel rest : List (ℚ × ℕ),
      (sel ++ rest).Perm
        ((st.userDocuments u).enum.map (fun p => (sim q p.2, p.1))) ∧
      sel.Pairwise pyDescOrd ∧
      (∀ x ∈ sel, ∀ y ∈ rest, pyDescOrd x y) ∧
      sel.length = min k (st.userDocuments u).length ∧
      querySR sim st q u k =
        ⟨sel.map (fun p => "doc_" ++ toString p.2),
         sel.map (fun p => p.1),
         sel.map (fun p => (st.userMetadatas u).getD p.2 ⟨"", "", ""⟩),
         sel.map (fun p => (st.userDocuments u).getD p.2 "")⟩ := by
  have hpw : (scoredPairs sim q (st.userDocuments u)).Pairwise pyDescOrd :=
    List.sorted_insertionSort pyDescOrd _
  refine ⟨(scoredPairs sim q (st.userDocuments u)).take k,
          (scoredPairs sim q (st.userDocuments u)).drop k,
          ?_, ?_, ?_, ?_, ?_⟩
  · rw [List.take_append_drop]
    exact List.perm_insertionSort pyDescOrd _
  · exact List.Pairwise.sublist (List.take_sublist k _) hpw
  · intro x hx y hy
    have hall : List.Pairwise pyDescOrd
        ((scoredPairs sim q (st.userDocuments u)).take k ++
          (scoredPairs sim q (st.userDocuments u)).drop k) := by
      rw [List.take_append_drop]
      exact hpw
    exact (List.pairwise_append.mp hall).2.2 x hx y hy
  · rw [List.length_take, scoredPairs, pySortDesc,
      List.length_insertionSort, List.length_map, List.enum_length]
  · unfold querySR queryCore
    rw [if_neg (fun h0 => h (List.eq_nil_of_length_eq_zero h0))]

/-- C2 witness: the single-chunk tenant `["pear"]` queried with `"pear"`
and top-k 1. -/
theorem c2_witness :
    ((⟨fun _ => ["pear"], fun _ => []⟩ : SimpleState).userDocuments "u"
        ≠ []) ∧
    (∃ sel rest : List (ℚ × ℕ),
      (sel ++ rest).Perm
        (((⟨fun _ => ["pear"], fun _ => []⟩ :
            SimpleState).userDocuments "u").enum.map
          (fun p => (simpleSimilarity "pear" p.2, p.1))) ∧
      sel.Pairwise pyDescOrd ∧
      (∀ x ∈ sel, ∀ y ∈ rest, pyDescOrd x y) ∧
      sel.length = min 1 ((⟨fun _ => ["pear"], fun _ => []⟩ :
          SimpleState).userDocuments "u").length ∧
      querySR simpleSimilarity ⟨fun _ => ["pear"], fun _ => []⟩
          "pear" "u" 1 =
        ⟨sel.map (fun p => "doc_" ++ toString p.2),
         sel.map (fun p => p.1),
         sel.map (fun p => ((⟨fun _ => ["pear"], fun _ => []⟩ :
             SimpleState).userMetadatas "u").getD p.2 ⟨"", "", ""⟩),
         sel.map (fun p => ((⟨fun _ => ["pear"], fun _ => []⟩ :
             SimpleState).userDocuments "u").getD p.2 "")⟩) :=
  ⟨by decide,
   c2_query_ranking simpleSimilarity ⟨fun _ => ["pear"], fun _ => []⟩
     "pear" "u" 1 (by decide)⟩

/-- C6 counterexample: with an established two-dimensional index, adding a
chunk whose embedding has dimension three fails with the untyped numpy
`ValueError` raised by `vstack` — no `DimensionMismatchError` class exists in
the code — while the state is indeed left unchanged. -/
theorem c6_counterexample :
    (addDocumentsLocal (fun t => List.replicate t.length (1 : ℚ))
        ⟨["ab"], [⟨"ab", "doc_0"⟩], some [[1, 1]], some (2, [[1, 1]])⟩
        ["abc"] none).2 = Except.error PyError.valueError ∧
    (Except.error PyError.valueError : Except PyError AddResult)
        ≠ Except.error PyError.dimensionMismatchError ∧
    (addDocumentsLocal (fun t => List.replicate t.length (1 : ℚ))
        ⟨["ab"], [⟨"ab", "doc_0"⟩], some [[1, 1]], some (2, [[1, 1]])⟩
        ["abc"] none).1
      = ⟨["ab"], [⟨"ab", "doc_0"⟩], some [[1, 1]], some (2, [[1, 1]])⟩ := by
  decide

/-- C6 (amended): in vector mode, adding texts whose embedding rows do not
all match the established embedding-matrix dimension makes `np.vstack`
raise an untyped `ValueError` (there is no typed `DimensionMismatchError` in
the code), and since the exception fires before any mutation, documents,
metadata, embeddings and index are all left unchanged, so subsequent count
and query observe only the prior state. -/
theorem c6_dimension_mismatch (embed : String → List ℚ) (st : LocalState)
    (texts : List String) (metas : Option (List LMeta))
    (old : List (List ℚ)) (hemb : st.embeddings = some old)
    (hne : texts ≠ [])
    (hmis : (texts.map embed).all
        (fun v => v.length = (old.headD []).length) = false) :
    addDocumentsLocal embed st texts metas
      = (st, Except.error PyError.valueError) := by
  have hprop : ¬ ∀ a ∈ texts, (embed a).length = (old.head?.getD []).length := by
    intro hall
    have htrue : (texts.map embed).all
        (fun v => v.length = (old.headD []).length) = true := by
      rw [List.all_eq_true]
      intro v hv
      obtain ⟨a, ha, hva⟩ := List.mem_map.mp hv
      subst hva
      rw [List.headD_eq_head?_getD]
      exact decide_eq_true (hall a ha)
    rw [hmis] at htrue
    exact Bool.false_ne_true htrue
  unfold addDocumentsLocal
  rw [if_neg hne, hemb]
  simp [hprop]

/-- C6 witness: a concrete two-dimensional index receiving a
three-dimensional embedding. -/
theorem c6_witness :
    ((⟨["xy"], [⟨"xy", "doc_0"⟩], some [[1, 1]], some (2, [[1, 1]])⟩ :
        LocalState).embeddings = some [[1, 1]]) ∧
    (["xyz"] : List String) ≠ [] ∧
    ((["xyz"] : List String).map
        (fun t => List.replicate t.length (1 : ℚ))).all
      (fun v => v.length = (([[1, 1]] : List (List ℚ)).headD []).length)
        = false ∧
    addDocumentsLocal (fun t => List.replicate t.length (1 : ℚ))
        ⟨["xy"], [⟨"xy", "doc_0"⟩], some [[1, 1]], some (2, [[1, 1]])⟩
        ["xyz"] none
      = (⟨["xy"], [⟨"xy", "doc_0"⟩], some [[1, 1]], some (2, [[1, 1]])⟩,
         Except.error PyError.valueError) :=
  ⟨rfl, by decide, by decide,
   c6_dimension_mismatch (fun t => List.replicate t.length (1 : ℚ))
     ⟨["xy"], [⟨"xy", "doc_0"⟩], some [[1, 1]], some (2, [[1, 1]])⟩
     ["xyz"] none [[1, 1]] rfl (by decide) (by decide)⟩

end RagApp
